import Mathlib

/-!
# A shallow embedding of the RustLua tree-walking interpreter

This file embeds the core of the `RustLua` interpreter (the crate's
`src/ast.rs`, `src/interpreter/mod.rs`, `src/interpreter/value.rs` and
`src/interpreter/error.rs`) into Lean and proves the frozen claims about
it.

Modelling conventions:
* Rust `f64` numbers are modelled as `Rat`.  None of the claims depends on
  rounding; the arithmetic and comparison structure is preserved exactly.
  The `f64 as i32` cast performed by `evaluate_index` is saturating in
  Rust, and is modelled by `i32Clamp`.
* `Rc<RefCell<Value>>` scope cells and `Rc<RefCell<Table>>` tables are
  modelled by explicit heaps (`State.cells`, `State.tables`) addressed by
  natural numbers; a `Scope` maps names to cell addresses, mirroring the
  `HashMap<String, Rc<RefCell<Value>>>` of `value.rs`.
* Fallible evaluation returns `Except Fault`, where `Fault.lua` carries the
  typed `LuaError` taxonomy of `error.rs`, `Fault.panicked` models the
  `todo!(...)` panics present in the source, and `Fault.outOfFuel` is the
  step bound of the embedding (the source recurses without a bound).
* The parser is an external collaborator (`lua_parser`); `execute` is
  modelled on an already-parsed program, as the spec's §1 allows.
-/

namespace RustLua

/-! ## Syntax tree (`src/ast.rs`) -/

/-- `ast.rs` `Operation`: the binary operators (the misspelling
`GraterThan` is the source's). -/
inductive Operation where
  | Add
  | Subtract
  | Multiply
  | Divide
  | Equals
  | GraterThan
  | LessThan
  | GraterThanEquals
  | LessThanEquals
deriving DecidableEq, Repr

mutual

/-- `ast.rs` `Statement`. -/
inductive Statement where
  | Assignment (lhs rhs : Expression)
  | Return (value : Expression)
  | Local (name : String) (value : Expression)
  | Expression (e : Expression)
  | Function (name : String) (parameters : List String) (body : List Statement)
  | If (condition : Expression) (thenB : List Statement)
       (elseifB : List (Expression × List Statement)) (elseB : Option (List Statement))
  | NumericFor (name : String) (start stop : Expression)
       (step : Option Expression) (body : List Statement)

/-- `ast.rs` `Expression`. -/
inductive Expression where
  | Term (t : Term)
  | Binary (lhs : Expression) (op : Operation) (rhs : Expression)
  | Call (callee : Expression) (arguments : List Expression)
  | Dot (obj : Expression) (name : String)
  | Index (obj : Expression) (index : Expression)
  | Function (parameters : List String) (body : List Statement)

/-- `ast.rs` `Term`. -/
inductive Term where
  | Number (n : Rat)
  | String (s : String)
  | Boolean (b : Bool)
  | Variable (name : String)
  | Table (items : List (Option TableConstructionIndex × Expression))

/-- `ast.rs` `TableConstructionIndex`. -/
inductive TableConstructionIndex where
  | Name (s : String)
  | Value (e : Expression)

end

/-! ## Value model (`src/interpreter/value.rs`) -/

/-- `value.rs` `Index`: a normalized table key. -/
inductive Index where
  | Name (s : String)
  | Number (n : Int)
deriving DecidableEq, Repr

/-- `value.rs` `Scope`: a map from names to shared value cells
(`HashMap<String, Rc<RefCell<Value>>>`); the `Rc<RefCell<_>>` cells live in
`State.cells` and the scope stores their addresses. -/
structure Scope where
  table : List (String × Nat)
deriving DecidableEq, Repr

/-- `value.rs` `Value`.  A `Function` value carries the fields of
`FunctionCapture` (parameters, body, captured scope); a `Table` value is an
address into the table heap (the `Rc<RefCell<Table>>`); a `NativeFunction`
is an index into the interpreter's native-function list. -/
inductive Value where
  | Nil
  | Number (n : Rat)
  | String (s : String)
  | Boolean (b : Bool)
  | Function (parameters : List String) (body : List Statement) (capture : Scope)
  | Table (ref : Nat)
  | NativeFunction (id : Nat)

/-- `value.rs` `type Table = HashMap<Index, Value>`, as an association list
with at most one entry per key. -/
def LuaTable := List (Index × Value)

/-- `error.rs` `LuaError`. -/
inductive LuaError where
  | InvalidIndex (v : Value)
  | InvalidCall (v : Value)
  | InvalidArithmetic (v : Value)
  | BadForLimit (v : Value)
  | BadForInitialValue (v : Value)
  | BadForStep (v : Value)

/-- How an evaluation step can fail: a typed `LuaError` (the `Err` channel
of `interpreter::Result`), a Rust `todo!` panic, or exhaustion of the
embedding's step bound. -/
inductive Fault where
  | lua (e : LuaError)
  | panicked (msg : String)
  | outOfFuel

/-- `value.rs` `Value::is_truthy`. -/
def Value.is_truthy : Value → Bool
  | .Boolean false => false
  | .Nil => false
  | _ => true

/-- Whether a value is a `Number` (used to state claims). -/
def Value.isNumber : Value → Bool
  | .Number _ => true
  | _ => false

/-- Whether a value is a `String` (used to state claims). -/
def Value.isString : Value → Bool
  | .String _ => true
  | _ => false

/-- Whether a value is a `Table` (used to state claims). -/
def Value.isTable : Value → Bool
  | .Table _ => true
  | _ => false

/-- Whether a value is callable, i.e. a `Function` or a `NativeFunction`
(used to state claims). -/
def Value.isCallable : Value → Bool
  | .Function _ _ _ => true
  | .NativeFunction _ => true
  | _ => false

/-! ## Scope operations (`src/interpreter/value.rs`, `impl Scope`) -/

/-- First-match lookup in a name→address association list (the
`HashMap::get` of a scope's table). -/
def lookupName : List (String × Nat) → String → Option Nat
  | [], _ => none
  | (k, a) :: rest, name => if k = name then some a else lookupName rest name

/-- `Scope::has`. -/
def Scope.has (s : Scope) (name : String) : Bool :=
  (lookupName s.table name).isSome

/-- The cell address a scope binds a name to, if any. -/
def Scope.addrOf (s : Scope) (name : String) : Option Nat :=
  lookupName s.table name

/-- `Scope::get`, reading through the cell heap. -/
def Scope.get (s : Scope) (name : String) (cells : List Value) : Option Value :=
  (lookupName s.table name).map fun a => cells.getD a Value.Nil

/-- `Scope::put`: overwrite the existing cell in place when the name is
bound (`slot.swap`), otherwise allocate a fresh cell
(`table.insert(name, Rc::from(RefCell::from(value)))`).  Returns the
updated scope and cell heap. -/
def Scope.put (s : Scope) (cells : List Value) (name : String) (v : Value) :
    Scope × List Value :=
  match lookupName s.table name with
  | some addr => (s, cells.set addr v)
  | none => (⟨(name, cells.length) :: s.table⟩, cells ++ [v])

/-- `Scope::clone` (the derived `Clone`): the map structure is copied while
every `Rc` cell is shared.  In the embedding the map is immutable data and
the cells live in the heap, so the structural copy is the scope itself. -/
def Scope.clone (s : Scope) : Scope := s

/-! ## Table operations -/

/-- First-match lookup in a table (`HashMap::get`). -/
def lookupIdx : List (Index × Value) → Index → Option Value
  | [], _ => none
  | (k, v) :: rest, i => if k = i then some v else lookupIdx rest i

/-- `HashMap::insert`: replaces any existing entry for the key. -/
def tableInsert (t : LuaTable) (i : Index) (v : Value) : LuaTable :=
  (i, v) :: t.filter fun p => p.1 ≠ i

/-- `HashMap::get` on a table value. -/
def tableGet (t : LuaTable) (i : Index) : Option Value :=
  lookupIdx t i

/-! ## Interpreter state -/

/-- The mutable data threaded through evaluation: the interpreter's
persistent global scope (`Interpreter::global_scope`), the heap of scope
cells, the heap of tables, and the host-registered native functions. -/
structure State where
  global_scope : Scope
  cells : List Value
  tables : List LuaTable
  natives : List (List Value → Value)

/-- A fresh interpreter (`Interpreter::new`) with no natives defined. -/
def initState : State :=
  { global_scope := ⟨[]⟩, cells := [], tables := [], natives := [] }

/-- Write a value into a scope via `Scope::put`, threading the heap. -/
def putVar (scope : Scope) (st : State) (name : String) (v : Value) :
    Scope × State :=
  let p := scope.put st.cells name v
  (p.1, { st with cells := p.2 })

/-- `self.global_scope.put(...)`. -/
def putGlobal (st : State) (name : String) (v : Value) : State :=
  let p := st.global_scope.put st.cells name v
  { st with global_scope := p.1, cells := p.2 }

/-- Read a table from the table heap (`table.borrow()`). -/
def getTable (st : State) (r : Nat) : LuaTable :=
  st.tables.getD r []

/-- Write a table back to the table heap (a `table.borrow_mut()` update). -/
def setTable (st : State) (r : Nat) (t : LuaTable) : State :=
  { st with tables := st.tables.set r t }

/-- The `f64 as i32` cast of `evaluate_index`, which saturates at the
`i32` bounds (the operand is known to be whole there). -/
def i32Clamp (n : Int) : Int :=
  if n < -(2 ^ 31) then -(2 ^ 31)
  else if n > 2 ^ 31 - 1 then 2 ^ 31 - 1
  else n

/-- Decimal digits of a rational in `[0, 1)`, with a recursion bound (every
`f64` fraction terminates well within it). -/
def fracDigits : Nat → Rat → String
  | 0, _ => ""
  | fuel + 1, x =>
    if x = 0 then ""
    else
      let y := x * 10
      let d := ⌊y⌋
      toString d ++ fracDigits fuel (y - (d : Rat))

/-- `f64::to_string` on the values reaching `Index::Name(n.to_string())`:
sign, integer part, decimal digits of the fractional part. -/
def renderNumAux (q : Rat) : String :=
  let ip := ⌊q⌋
  let fp := q - (ip : Rat)
  if fp = 0 then toString ip else toString ip ++ "." ++ fracDigits 1100 fp

/-- Decimal rendering of a number, used by `evaluate_index` for
non-integral keys (`n.to_string()` in the source). -/
def renderNum (q : Rat) : String :=
  if q < 0 then "-" ++ renderNumAux (-q) else renderNumAux q

/-! ## Operator helpers (`src/interpreter/value.rs`) -/

/-- `value.rs` `execute_arithmetic_operation`.  `Number op Number` yields a
`Number`; a `Nil`, `Boolean`, `Table`, `Function` or `NativeFunction`
operand (left checked first) is a typed `InvalidArithmetic`; a `String`
operand reaches one of the source's two `todo!` arms. -/
def execute_arithmetic_operation (lhs rhs : Value)
    (number_operation : Rat → Rat → Rat) : Except Fault Value :=
  match lhs with
  | .Nil => .error (.lua (.InvalidArithmetic .Nil))
  | .Number lhs_n =>
    match rhs with
    | .Nil => .error (.lua (.InvalidArithmetic .Nil))
    | .Number rhs_n => .ok (.Number (number_operation lhs_n rhs_n))
    | .String _ => .error (.panicked "Implement string, number operations")
    | .Boolean b => .error (.lua (.InvalidArithmetic (.Boolean b)))
    | .Table r => .error (.lua (.InvalidArithmetic (.Table r)))
    | .Function p b c => .error (.lua (.InvalidArithmetic (.Function p b c)))
    | .NativeFunction id => .error (.lua (.InvalidArithmetic (.NativeFunction id)))
  | .String _ => .error (.panicked "Implement string, string operations")
  | .Boolean b => .error (.lua (.InvalidArithmetic (.Boolean b)))
  | .Table r => .error (.lua (.InvalidArithmetic (.Table r)))
  | .Function p b c => .error (.lua (.InvalidArithmetic (.Function p b c)))
  | .NativeFunction id => .error (.lua (.InvalidArithmetic (.NativeFunction id)))

/-- `value.rs` `execute_logic_operation`.  `Number op Number` yields a
`Boolean`; every other combination yields `Nil`, never an error. -/
def execute_logic_operation (lhs rhs : Value)
    (number_operation : Rat → Rat → Bool) : Value :=
  match lhs with
  | .Nil => .Nil
  | .Number lhs_n =>
    match rhs with
    | .Nil => .Nil
    | .Number rhs_n => .Boolean (number_operation lhs_n rhs_n)
    | .String _ => .Nil
    | .Boolean _ => .Nil
    | .Table _ => .Nil
    | .Function _ _ _ => .Nil
    | .NativeFunction _ => .Nil
  | .String _ => .Nil
  | .Boolean _ => .Nil
  | .Table _ => .Nil
  | .Function _ _ _ => .Nil
  | .NativeFunction _ => .Nil

/-! ## The evaluator (`src/interpreter/mod.rs`)

Every function takes a step bound `fuel` as its first argument and spends
one unit per call; the Rust source recurses unboundedly (a script can loop
forever), so the bound is the embedding's only addition.  The current
scope is threaded in and out, mirroring the `&mut Scope` parameters. -/

/-- `Interpreter::execute_function`: build a closure over a clone of the
current scope and register it in the global scope.  Infallible. -/
def execute_function (scope : Scope) (name : String) (parameters : List String)
    (body : List Statement) (st : State) : State :=
  putGlobal st name (Value.Function parameters body (Scope.clone scope))

mutual

/-- `Interpreter::execute_body`: run statements in order; the first
statement that signals a return value stops the body. -/
def execute_body (fuel : Nat) (scope : Scope) (body : List Statement)
    (st : State) : Except Fault (Option Value × Scope × State) :=
  match fuel with
  | 0 => .error .outOfFuel
  | fuel + 1 =>
    match body with
    | [] => .ok (none, scope, st)
    | statement :: rest =>
      match execute_statement fuel scope statement st with
      | .error e => .error e
      | .ok (some value, scope1, st1) => .ok (some value, scope1, st1)
      | .ok (none, scope1, st1) => execute_body fuel scope1 rest st1

/-- `Interpreter::execute_statement`. -/
def execute_statement (fuel : Nat) (scope : Scope) (statement : Statement)
    (st : State) : Except Fault (Option Value × Scope × State) :=
  match fuel with
  | 0 => .error .outOfFuel
  | fuel + 1 =>
    match statement with
    | .Assignment lhs rhs =>
      match execute_assign fuel scope lhs rhs st with
      | .error e => .error e
      | .ok (scope1, st1) => .ok (none, scope1, st1)
    | .Expression e =>
      match execute_expression fuel scope e st with
      | .error e => .error e
      | .ok (_, scope1, st1) => .ok (none, scope1, st1)
    | .Return value =>
      match execute_expression fuel scope value st with
      | .error e => .error e
      | .ok (v, scope1, st1) => .ok (some v, scope1, st1)
    | .Local name value =>
      match execute_local fuel scope name value st with
      | .error e => .error e
      | .ok (scope1, st1) => .ok (none, scope1, st1)
    | .Function name parameters body =>
      .ok (none, scope, execute_function scope name parameters body st)
    | .If condition thenB elseifB elseB =>
      execute_if fuel scope condition thenB elseifB elseB st
    | .NumericFor name start stop step body =>
      execute_numeric_for fuel scope name start stop step body st

/-- `Interpreter::execute_numeric_for`: evaluate start, limit and step (in
that order, each once); a non-`Number` raises the matching `BadFor*` error;
an omitted step defaults to `1.0`; then run the loop. -/
def execute_numeric_for (fuel : Nat) (scope : Scope) (name : String)
    (start stop : Expression) (step : Option Expression)
    (body : List Statement) (st : State) :
    Except Fault (Option Value × Scope × State) :=
  match fuel with
  | 0 => .error .outOfFuel
  | fuel + 1 =>
    match execute_expression fuel scope start st with
    | .error e => .error e
    | .ok (evaluated_start, scope1, st1) =>
      match evaluated_start with
      | .Number initial_value =>
        match execute_expression fuel scope1 stop st1 with
        | .error e => .error e
        | .ok (evaluated_end, scope2, st2) =>
          match evaluated_end with
          | .Number limit =>
            match step with
            | none => numeric_for_loop fuel scope2 name initial_value limit 1 body st2
            | some stepE =>
              match execute_expression fuel scope2 stepE st2 with
              | .error e => .error e
              | .ok (.Number stepv, scope3, st3) =>
                numeric_for_loop fuel scope3 name initial_value limit stepv body st3
              | .ok (v, _, _) => .error (.lua (.BadForStep v))
          | v => .error (.lua (.BadForLimit v))
      | v => .error (.lua (.BadForInitialValue v))

/-- The `while value <= limit` loop of `execute_numeric_for`: rebind the
loop variable, run the body, stop and propagate if the body returned,
otherwise add the step and continue. -/
def numeric_for_loop (fuel : Nat) (scope : Scope) (name : String)
    (value limit step : Rat) (body : List Statement) (st : State) :
    Except Fault (Option Value × Scope × State) :=
  match fuel with
  | 0 => .error .outOfFuel
  | fuel + 1 =>
    if value ≤ limit then
      let p := putVar scope st name (Value.Number value)
      match execute_body fuel p.1 body p.2 with
      | .error e => .error e
      | .ok (some v, scope1, st1) => .ok (some v, scope1, st1)
      | .ok (none, scope1, st1) =>
        numeric_for_loop fuel scope1 name (value + step) limit step body st1
    else
      .ok (none, scope, st)

/-- `Interpreter::execute_if`: try the primary condition, then each elseif
in order, then the else block. -/
def execute_if (fuel : Nat) (scope : Scope) (condition : Expression)
    (thenB : List Statement) (elseifB : List (Expression × List Statement))
    (elseB : Option (List Statement)) (st : State) :
    Except Fault (Option Value × Scope × State) :=
  match fuel with
  | 0 => .error .outOfFuel
  | fuel + 1 =>
    match execute_expression fuel scope condition st with
    | .error e => .error e
    | .ok (c, scope1, st1) =>
      if c.is_truthy then execute_body fuel scope1 thenB st1
      else execute_elseifs fuel scope1 elseifB elseB st1

/-- The elseif/else chain of `execute_if` (the `for (condition, then) in
elseif` loop followed by the `match else_`). -/
def execute_elseifs (fuel : Nat) (scope : Scope)
    (elseifB : List (Expression × List Statement))
    (elseB : Option (List Statement)) (st : State) :
    Except Fault (Option Value × Scope × State) :=
  match fuel with
  | 0 => .error .outOfFuel
  | fuel + 1 =>
    match elseifB with
    | [] =>
      match elseB with
      | some body => execute_body fuel scope body st
      | none => .ok (none, scope, st)
    | (condition, thenB) :: rest =>
      match execute_expression fuel scope condition st with
      | .error e => .error e
      | .ok (c, scope1, st1) =>
        if c.is_truthy then execute_body fuel scope1 thenB st1
        else execute_elseifs fuel scope1 rest elseB st1

/-- `Interpreter::execute_local`: evaluate, then `put` in the current
scope unconditionally. -/
def execute_local (fuel : Nat) (scope : Scope) (name : String)
    (value : Expression) (st : State) : Except Fault (Scope × State) :=
  match fuel with
  | 0 => .error .outOfFuel
  | fuel + 1 =>
    match execute_expression fuel scope value st with
    | .error e => .error e
    | .ok (evaluated_value, scope1, st1) =>
      .ok (putVar scope1 st1 name evaluated_value)

/-- `Interpreter::execute_expression`.  The `Operation` match of the
source has arms only for `Add`, `Subtract`, `Multiply`, `Divide` and
`Equals`; the four ordering variants of `ast.rs` have no arm (the match is
non-exhaustive, which `rustc` rejects), modelled here as a `panicked`
outcome. -/
def execute_expression (fuel : Nat) (scope : Scope) (expression : Expression)
    (st : State) : Except Fault (Value × Scope × State) :=
  match fuel with
  | 0 => .error .outOfFuel
  | fuel + 1 =>
    match expression with
    | .Term term => execute_term fuel scope term st
    | .Binary lhsE op rhsE =>
      match execute_expression fuel scope lhsE st with
      | .error e => .error e
      | .ok (lhs, scope1, st1) =>
        match execute_expression fuel scope1 rhsE st1 with
        | .error e => .error e
        | .ok (rhs, scope2, st2) =>
          match op with
          | .Add =>
            match execute_arithmetic_operation lhs rhs (· + ·) with
            | .error e => .error e
            | .ok v => .ok (v, scope2, st2)
          | .Subtract =>
            match execute_arithmetic_operation lhs rhs (· - ·) with
            | .error e => .error e
            | .ok v => .ok (v, scope2, st2)
          | .Multiply =>
            match execute_arithmetic_operation lhs rhs (· * ·) with
            | .error e => .error e
            | .ok v => .ok (v, scope2, st2)
          | .Divide =>
            match execute_arithmetic_operation lhs rhs (· / ·) with
            | .error e => .error e
            | .ok v => .ok (v, scope2, st2)
          | .Equals =>
            .ok (execute_logic_operation lhs rhs (fun a b => a == b), scope2, st2)
          | .GraterThan => .error (.panicked "non-exhaustive match on Operation")
          | .LessThan => .error (.panicked "non-exhaustive match on Operation")
          | .GraterThanEquals => .error (.panicked "non-exhaustive match on Operation")
          | .LessThanEquals => .error (.panicked "non-exhaustive match on Operation")
    | .Function parameters body =>
      .ok (Value.Function parameters body (Scope.clone scope), scope, st)
    | .Call callee arguments => execute_call fuel scope callee arguments st
    | .Dot value name => execute_dot_operation fuel scope value name st
    | .Index value index => execute_index_operation fuel scope value index st

/-- `Interpreter::execute_assign`: evaluate the right side first, then
dispatch on the target's shape.  A bare variable goes to the current scope
when bound there, else to the global scope; `Dot`/`Index` targets must be
tables; any other shape is the source's `todo!("Throw error")`. -/
def execute_assign (fuel : Nat) (scope : Scope) (lhs rhs : Expression)
    (st : State) : Except Fault (Scope × State) :=
  match fuel with
  | 0 => .error .outOfFuel
  | fuel + 1 =>
    match execute_expression fuel scope rhs st with
    | .error e => .error e
    | .ok (evaluated_value, scope1, st1) =>
      match lhs with
      | .Term (.Variable name) =>
        if scope1.has name then
          .ok (putVar scope1 st1 name evaluated_value)
        else
          .ok (scope1, putGlobal st1 name evaluated_value)
      | .Dot tableE name =>
        match execute_expression fuel scope1 tableE st1 with
        | .error e => .error e
        | .ok (.Table r, scope2, st2) =>
          .ok (scope2, setTable st2 r
                (tableInsert (getTable st2 r) (Index.Name name) evaluated_value))
        | .ok (v, _, _) => .error (.lua (.InvalidIndex v))
      | .Index tableE indexE =>
        match execute_expression fuel scope1 tableE st1 with
        | .error e => .error e
        | .ok (.Table r, scope2, st2) =>
          match evaluate_index fuel scope2 indexE st2 with
          | .error e => .error e
          | .ok (index, scope3, st3) =>
            .ok (scope3, setTable st3 r
                  (tableInsert (getTable st3 r) index evaluated_value))
        | .ok (v, _, _) => .error (.lua (.InvalidIndex v))
      | _ => .error (.panicked "Throw error")

/-- `Interpreter::execute_dot_operation`: the object must be a table; a
missing field reads as `Nil`. -/
def execute_dot_operation (fuel : Nat) (scope : Scope) (value : Expression)
    (name : String) (st : State) : Except Fault (Value × Scope × State) :=
  match fuel with
  | 0 => .error .outOfFuel
  | fuel + 1 =>
    match execute_expression fuel scope value st with
    | .error e => .error e
    | .ok (evaluated_value, scope1, st1) =>
      match evaluated_value with
      | .Table r =>
        .ok ((tableGet (getTable st1 r) (Index.Name name)).getD Value.Nil,
             scope1, st1)
      | v => .error (.lua (.InvalidIndex v))

/-- `Interpreter::execute_index_operation`: evaluate the object, then the
key (normalized), then require the object to be a table. -/
def execute_index_operation (fuel : Nat) (scope : Scope) (value : Expression)
    (index : Expression) (st : State) : Except Fault (Value × Scope × State) :=
  match fuel with
  | 0 => .error .outOfFuel
  | fuel + 1 =>
    match execute_expression fuel scope value st with
    | .error e => .error e
    | .ok (evaluated_value, scope1, st1) =>
      match evaluate_index fuel scope1 index st1 with
      | .error e => .error e
      | .ok (idx, scope2, st2) =>
        match evaluated_value with
        | .Table r =>
          .ok ((tableGet (getTable st2 r) idx).getD Value.Nil, scope2, st2)
        | v => .error (.lua (.InvalidIndex v))

/-- `Interpreter::evaluate_index`: a whole `Number` becomes a `Number`
index through the saturating `as i32` cast; a non-integral `Number`
becomes a `Name` index of its decimal rendering; a `String` becomes a
`Name` index; anything else is the source's `todo!("Throw error")`. -/
def evaluate_index (fuel : Nat) (scope : Scope) (index : Expression)
    (st : State) : Except Fault (Index × Scope × State) :=
  match fuel with
  | 0 => .error .outOfFuel
  | fuel + 1 =>
    match execute_expression fuel scope index st with
    | .error e => .error e
    | .ok (evaluated_index, scope1, st1) =>
      match evaluated_index with
      | .Number n =>
        if n.den = 1 then .ok (Index.Number (i32Clamp n.num), scope1, st1)
        else .ok (Index.Name (renderNum n), scope1, st1)
      | .String s => .ok (Index.Name s, scope1, st1)
      | _ => .error (.panicked "Throw error")

/-- `Interpreter::execute_term`: literals map to values; a variable reads
the current scope with explicit fallback to the global scope and a `Nil`
default; a table constructor builds a fresh table. -/
def execute_term (fuel : Nat) (scope : Scope) (term : Term) (st : State) :
    Except Fault (Value × Scope × State) :=
  match fuel with
  | 0 => .error .outOfFuel
  | fuel + 1 =>
    match term with
    | .Number n => .ok (Value.Number n, scope, st)
    | .String s => .ok (Value.String s, scope, st)
    | .Boolean b => .ok (Value.Boolean b, scope, st)
    | .Variable identifier =>
      match Scope.get scope identifier st.cells with
      | some v => .ok (v, scope, st)
      | none =>
        .ok ((Scope.get st.global_scope identifier st.cells).getD Value.Nil,
             scope, st)
    | .Table items => execute_construct_table fuel scope items st

/-- `Interpreter::execute_construct_table`: fold the entries, then
allocate the finished table in the heap (`Rc::new(RefCell::new(table))`). -/
def execute_construct_table (fuel : Nat) (scope : Scope)
    (items : List (Option TableConstructionIndex × Expression)) (st : State) :
    Except Fault (Value × Scope × State) :=
  match fuel with
  | 0 => .error .outOfFuel
  | fuel + 1 =>
    match construct_table_items fuel scope items 1 [] st with
    | .error e => .error e
    | .ok (table, scope1, st1) =>
      .ok (Value.Table st1.tables.length, scope1,
           { st1 with tables := st1.tables ++ [table] })

/-- The entry loop of `execute_construct_table`: evaluate each value
expression in order, resolve its index (explicit name, evaluated key, or
the auto counter, which advances only for auto-keyed entries), and insert,
overwriting earlier entries with the same index.

The auto counter is the source's `current_numeric_index: i32`.  Its
`+= 1` runs after the index is taken but before the insert, and at
`i32::MAX = 2^31 - 1` it overflows: under the default (debug) profile's
overflow checks this is an "attempt to add with overflow" panic, modelled
here as a `panicked` fault before the entry is inserted; a release build
would instead wrap the counter to `-2^31`.  Below that bound the counter
behaves as plain `+ 1`. -/
def construct_table_items (fuel : Nat) (scope : Scope)
    (items : List (Option TableConstructionIndex × Expression))
    (current_numeric_index : Int) (table : LuaTable) (st : State) :
    Except Fault (LuaTable × Scope × State) :=
  match fuel with
  | 0 => .error .outOfFuel
  | fuel + 1 =>
    match items with
    | [] => .ok (table, scope, st)
    | (index, value) :: rest =>
      match execute_expression fuel scope value st with
      | .error e => .error e
      | .ok (v, scope1, st1) =>
        match index with
        | some (.Name name) =>
          construct_table_items fuel scope1 rest current_numeric_index
            (tableInsert table (Index.Name name) v) st1
        | some (.Value indexE) =>
          match evaluate_index fuel scope1 indexE st1 with
          | .error e => .error e
          | .ok (idx, scope2, st2) =>
            construct_table_items fuel scope2 rest current_numeric_index
              (tableInsert table idx v) st2
        | none =>
          if current_numeric_index = 2 ^ 31 - 1 then
            .error (.panicked "attempt to add with overflow")
          else
            construct_table_items fuel scope1 rest (current_numeric_index + 1)
              (tableInsert table (Index.Number current_numeric_index) v) st1

/-- `Interpreter::execute_call`: evaluate the callee, then dispatch on
native function, script function, or the `InvalidCall` error. -/
def execute_call (fuel : Nat) (scope : Scope) (callee : Expression)
    (arguments : List Expression) (st : State) :
    Except Fault (Value × Scope × State) :=
  match fuel with
  | 0 => .error .outOfFuel
  | fuel + 1 =>
    match execute_expression fuel scope callee st with
    | .error e => .error e
    | .ok (evaluated_callee, scope1, st1) =>
      match evaluated_callee with
      | .NativeFunction id => execute_native_call fuel scope1 arguments id st1
      | .Function parameters body capture =>
        execute_function_call fuel scope1 arguments parameters body capture st1
      | v => .error (.lua (.InvalidCall v))

/-- `Interpreter::execute_native_call`: evaluate the arguments left to
right, then apply the host callback. -/
def execute_native_call (fuel : Nat) (scope : Scope)
    (arguments : List Expression) (id : Nat) (st : State) :
    Except Fault (Value × Scope × State) :=
  match fuel with
  | 0 => .error .outOfFuel
  | fuel + 1 =>
    match execute_expressions fuel scope arguments st with
    | .error e => .error e
    | .ok (argvals, scope1, st1) =>
      match st1.natives.get? id with
      | some f => .ok (f argvals, scope1, st1)
      | none => .error (.panicked "dangling native function pointer")

/-- Left-to-right evaluation of an expression list (the argument `map` of
`execute_native_call`). -/
def execute_expressions (fuel : Nat) (scope : Scope) (es : List Expression)
    (st : State) : Except Fault (List Value × Scope × State) :=
  match fuel with
  | 0 => .error .outOfFuel
  | fuel + 1 =>
    match es with
    | [] => .ok ([], scope, st)
    | e :: rest =>
      match execute_expression fuel scope e st with
      | .error e' => .error e'
      | .ok (v, scope1, st1) =>
        match execute_expressions fuel scope1 rest st1 with
        | .error e' => .error e'
        | .ok (vs, scope2, st2) => .ok (v :: vs, scope2, st2)

/-- `Interpreter::execute_function_call`: an arity mismatch is the
source's `todo!("Throw error")`; otherwise clone the captured scope, bind
each parameter to its evaluated argument, run the body there, and return
the body's return value or `Nil`. -/
def execute_function_call (fuel : Nat) (scope : Scope)
    (arguments : List Expression) (parameters : List String)
    (body : List Statement) (capture : Scope) (st : State) :
    Except Fault (Value × Scope × State) :=
  match fuel with
  | 0 => .error .outOfFuel
  | fuel + 1 =>
    if parameters.length ≠ arguments.length then
      .error (.panicked "Throw error")
    else
      match bind_parameters fuel scope (Scope.clone capture) arguments parameters st with
      | .error e => .error e
      | .ok (scope1, function_scope, st1) =>
        match execute_body fuel function_scope body st1 with
        | .error e => .error e
        | .ok (ov, _, st2) => .ok (ov.getD Value.Nil, scope1, st2)

/-- The parameter-binding loop of `execute_function_call`: evaluate each
argument in the caller's scope and `put` it into the callee scope under
the parameter's name. -/
def bind_parameters (fuel : Nat) (scope function_scope : Scope)
    (arguments : List Expression) (parameters : List String) (st : State) :
    Except Fault (Scope × Scope × State) :=
  match fuel with
  | 0 => .error .outOfFuel
  | fuel + 1 =>
    match arguments, parameters with
    | argument :: args, parameter :: params =>
      match execute_expression fuel scope argument st with
      | .error e => .error e
      | .ok (v, scope1, st1) =>
        let p := function_scope.put st1.cells parameter v
        bind_parameters fuel scope1 p.1 args params { st1 with cells := p.2 }
    | _, _ => .ok (scope, function_scope, st)

end

/-- `Interpreter::execute` (minus the external parse step): run the
program's body in a fresh scope and turn "no return value" into `Nil`. -/
def execute (fuel : Nat) (program : List Statement) (st : State) :
    Except Fault (Value × State) :=
  match execute_body fuel ⟨[]⟩ program st with
  | .error e => .error e
  | .ok (ov, _, st1) => .ok (ov.getD Value.Nil, st1)

/-- Run a program on a fresh interpreter (`Interpreter::new` followed by
`execute`), keeping only the resulting value. -/
def run (fuel : Nat) (program : List Statement) : Except Fault Value :=
  (execute fuel program initState).map Prod.fst

/-! ## Helper lemmas about the heap model -/

theorem getD_set_eq {α : Type} (d : α) (l : List α) (a : Nat) (v : α)
    (h : a < l.length) : (l.set a v).getD a d = v := by
  simp [List.getD, List.getElem?_set_eq_of_lt v h]

theorem getD_append_length {α : Type} (d : α) (l : List α) (v : α) :
    (l ++ [v]).getD l.length d = v := by
  simp [List.getD]

theorem lookupIdx_filter_ne (t : List (Index × Value)) (i j : Index) (h : j ≠ i) :
    lookupIdx (t.filter fun p => p.1 ≠ i) j = lookupIdx t j := by
  induction t with
  | nil => rfl
  | cons p rest ih =>
    obtain ⟨k, v⟩ := p
    by_cases hk : k = i
    · subst hk
      have hkj : ¬ (k = j) := fun hj => h hj.symm
      simpa [List.filter_cons, lookupIdx, hkj] using ih
    · by_cases hj : k = j
      · simp [List.filter_cons, hk, lookupIdx, hj, h]
      · simpa [List.filter_cons, hk, lookupIdx, hj] using ih

/-! ## Claim C2 -/

/-- C2: `Scope::put` on a name bound in the scope overwrites the existing
cell's contents in place — the map (and so the cell's identity) is
unchanged, the heap is updated at the cell's address, and every scope
holding that address (in particular any clone of this scope) reads the new
value.  `put` on an unbound name allocates a fresh cell, which a clone
taken before the `put` does not see, so two closures sharing a scope
co-mutate capture-time names and diverge on names added after the copy. -/
theorem C2_scope_put_shared_cells
    (scope : Scope) (cells : List Value) (name : String) (v : Value) :
    (∀ addr, scope.addrOf name = some addr → addr < cells.length →
      (scope.put cells name v).1 = scope ∧
      (scope.put cells name v).2 = cells.set addr v ∧
      (∀ s2 : Scope, s2.addrOf name = some addr →
        s2.get name (scope.put cells name v).2 = some v) ∧
      (Scope.clone scope).get name (scope.put cells name v).2 = some v) ∧
    (scope.addrOf name = none →
      (scope.put cells name v).1.addrOf name = some cells.length ∧
      (scope.put cells name v).2 = cells ++ [v] ∧
      (scope.put cells name v).1.get name (scope.put cells name v).2 = some v ∧
      (Scope.clone scope).get name (scope.put cells name v).2 = none) := by
  constructor
  · intro addr h hlt
    have h' : lookupName scope.table name = some addr := h
    have hput : scope.put cells name v = (scope, cells.set addr v) := by
      simp [Scope.put, h']
    have hget : ∀ s2 : Scope, lookupName s2.table name = some addr →
        s2.get name (cells.set addr v) = some v := by
      intro s2 h2
      simp [Scope.get, h2, List.getD, List.getElem?_set_eq_of_lt v hlt]
    refine ⟨by simp [hput], by simp [hput], ?_, ?_⟩
    · intro s2 h2
      rw [hput]
      exact hget s2 h2
    · rw [hput]
      exact hget scope h'
  · intro h
    have h' : lookupName scope.table name = none := h
    have hput : scope.put cells name v
        = (⟨(name, cells.length) :: scope.table⟩, cells ++ [v]) := by
      simp [Scope.put, h']
    refine ⟨?_, by simp [hput], ?_, ?_⟩
    · simp [hput, Scope.addrOf, lookupName]
    · rw [hput]
      simp [Scope.get, lookupName, List.getD]
    · rw [hput]
      simp [Scope.clone, Scope.get, h']

/-- Witness for C2 at a concrete scope: rebinding `x` (bound at cell 0)
updates the shared cell so a sibling holder of cell 0 sees the new value,
and binding a fresh name `y` allocates cell 1, invisible to the earlier
clone. -/
theorem C2_scope_put_shared_cells_witness :
    ((Scope.mk [("x", 0)]).put [Value.Number 1] "x" (Value.Number 2)).2
        = [Value.Number 2] ∧
    (Scope.mk [("x", 0)]).get "x"
        ((Scope.mk [("x", 0)]).put [Value.Number 1] "x" (Value.Number 2)).2
        = some (Value.Number 2) ∧
    ((Scope.mk [("x", 0)]).put [Value.Number 1] "y" (Value.Number 3)).1.addrOf "y"
        = some 1 ∧
    (Scope.clone (Scope.mk [("x", 0)])).get "y"
        ((Scope.mk [("x", 0)]).put [Value.Number 1] "y" (Value.Number 3)).2
        = none := by
  have h1 := (C2_scope_put_shared_cells (Scope.mk [("x", 0)]) [Value.Number 1]
    "x" (Value.Number 2)).1 0 (by rfl) (by simp)
  have h2 := (C2_scope_put_shared_cells (Scope.mk [("x", 0)]) [Value.Number 1]
    "y" (Value.Number 3)).2 (by rfl)
  exact ⟨h1.2.1 ▸ rfl, h1.2.2.1 (Scope.mk [("x", 0)]) rfl, h2.1, h2.2.2.2⟩

/-! ## Claim C3 -/

/-- The numeric closure `execute_expression` passes to
`execute_arithmetic_operation` for each arithmetic operation (the four
arms at `mod.rs:151-154`); `none` for the other operations. -/
def arithmetic_of : Operation → Option (Rat → Rat → Rat)
  | .Add => some (· + ·)
  | .Subtract => some (· - ·)
  | .Multiply => some (· * ·)
  | .Divide => some (· / ·)
  | _ => none

/-- C3 counterexample: the claim says every non-Number operand — String
included — raises `InvalidArithmetic` naming that operand, but a String
operand reaches the source's `todo!` panic, not a typed error. -/
theorem C3_string_operand_counterexample :
    run 10 [.Return (.Binary (.Term (.String "a")) .Add (.Term (.Number 1)))]
      = .error (.panicked "Implement string, string operations") ∧
    run 10 [.Return (.Binary (.Term (.String "a")) .Add (.Term (.Number 1)))]
      ≠ .error (.lua (.InvalidArithmetic (.String "a"))) := by
  have h : run 10 [.Return (.Binary (.Term (.String "a")) .Add (.Term (.Number 1)))]
      = .error (.panicked "Implement string, string operations") := rfl
  refine ⟨h, ?_⟩
  rw [h]
  simp

set_option linter.unnecessarySeqFocus false in
/-- C3 (amended): for Add/Subtract/Multiply/Divide both operands are
evaluated eagerly, left then right; Number/Number yields the Number
obtained by applying the operation; a non-Number, non-String operand
(left checked first) raises `InvalidArithmetic` carrying that operand; a
String operand instead reaches the source's unimplemented `todo!` paths. -/
theorem C3_arithmetic_dispatch_and_errors (fuel : Nat) (scope : Scope)
    (st : State) (lhsE rhsE : Expression) :
    (∀ op f, arithmetic_of op = some f →
      execute_expression (fuel + 1) scope (.Binary lhsE op rhsE) st =
        match execute_expression fuel scope lhsE st with
        | .error e => .error e
        | .ok (lhs, scope1, st1) =>
          match execute_expression fuel scope1 rhsE st1 with
          | .error e => .error e
          | .ok (rhs, scope2, st2) =>
            match execute_arithmetic_operation lhs rhs f with
            | .error e => .error e
            | .ok v => .ok (v, scope2, st2)) ∧
    (∀ a b f, execute_arithmetic_operation (.Number a) (.Number b) f
        = .ok (.Number (f a b))) ∧
    (∀ l r f, l.isNumber = false → l.isString = false →
      execute_arithmetic_operation l r f
        = .error (.lua (.InvalidArithmetic l))) ∧
    (∀ a r f, r.isNumber = false → r.isString = false →
      execute_arithmetic_operation (.Number a) r f
        = .error (.lua (.InvalidArithmetic r))) ∧
    (∀ l r f, l.isString = true →
      execute_arithmetic_operation l r f
        = .error (.panicked "Implement string, string operations")) ∧
    (∀ a s f, execute_arithmetic_operation (.Number a) (.String s) f
        = .error (.panicked "Implement string, number operations")) := by
  refine ⟨?_, ?_, ?_, ?_, ?_, ?_⟩
  · intro op f h
    cases op <;> simp [arithmetic_of] at h <;> subst h <;> rfl
  · intro a b f
    rfl
  · intro l r f hn hs
    cases l <;> simp [Value.isNumber, Value.isString] at hn hs ⊢ <;>
      simp [execute_arithmetic_operation]
  · intro a r f hn hs
    cases r <;> simp [Value.isNumber, Value.isString] at hn hs ⊢ <;>
      simp [execute_arithmetic_operation]
  · intro l r f hs
    cases l <;> simp [Value.isString] at hs ⊢ <;>
      simp [execute_arithmetic_operation]
  · intro a s f
    rfl

/-- Witness for C3: `2 + 3` evaluates eagerly to `5`; a Boolean left
operand and a Nil right operand raise `InvalidArithmetic` naming that
operand. -/
theorem C3_arithmetic_dispatch_and_errors_witness :
    execute_expression 4 ⟨[]⟩
        (.Binary (.Term (.Number 2)) .Add (.Term (.Number 3))) initState
      = .ok (.Number 5, ⟨[]⟩, initState) ∧
    execute_arithmetic_operation (.Boolean true) (.Number 1) (· + ·)
      = .error (.lua (.InvalidArithmetic (.Boolean true))) ∧
    execute_arithmetic_operation (.Number 1) .Nil (· * ·)
      = .error (.lua (.InvalidArithmetic .Nil)) := by
  have h := C3_arithmetic_dispatch_and_errors 3 ⟨[]⟩ initState
    (.Term (.Number 2)) (.Term (.Number 3))
  refine ⟨?_, ?_, ?_⟩
  · rw [h.1 .Add (· + ·) rfl]
    with_unfolding_all rfl
  · exact h.2.2.1 (.Boolean true) (.Number 1) (· + ·) rfl rfl
  · exact h.2.2.2.1 1 .Nil (· * ·) rfl rfl

/-! ## Claim C4 -/

/-- C4 (at the level of the code that exists): `execute_logic_operation`
yields a Boolean exactly on Number/Number operands and `Nil` on every
other combination, never an error, for any comparison predicate — and the
evaluator dispatches `Equals` to it after eager left-then-right operand
evaluation.  The four ordering operators declared in `ast.rs` have no arm
in the evaluator's `Operation` match (see `execute_expression`), which is
the code bug this claim trips over. -/
theorem C4_comparison_policy (fuel : Nat) (scope : Scope) (st : State)
    (lhsE rhsE : Expression) (p : Rat → Rat → Bool) (lhs rhs : Value) :
    (∀ a b, execute_logic_operation (.Number a) (.Number b) p
        = .Boolean (p a b)) ∧
    (lhs.isNumber = false ∨ rhs.isNumber = false →
      execute_logic_operation lhs rhs p = .Nil) ∧
    (execute_expression (fuel + 1) scope (.Binary lhsE .Equals rhsE) st =
      match execute_expression fuel scope lhsE st with
      | .error e => .error e
      | .ok (lv, scope1, st1) =>
        match execute_expression fuel scope1 rhsE st1 with
        | .error e => .error e
        | .ok (rv, scope2, st2) =>
          .ok (execute_logic_operation lv rv (fun a b => a == b),
               scope2, st2)) := by
  refine ⟨fun a b => rfl, ?_, rfl⟩
  intro h
  cases lhs <;> cases rhs <;>
    simp [Value.isNumber, execute_logic_operation] at h ⊢

/-- Witness for C4, instantiating the predicate with an ordering
comparison: `1 < 2` on Numbers gives `Boolean true`, a String/Number
mismatch gives `Nil`, and `1 == 1` evaluates to `Boolean true` through the
`Equals` dispatch. -/
theorem C4_comparison_policy_witness :
    execute_logic_operation (.Number 1) (.Number 2) (fun a b => a < b)
      = .Boolean true ∧
    execute_logic_operation (.String "x") (.Number 1) (fun a b => a < b)
      = .Nil ∧
    execute_expression 4 ⟨[]⟩
        (.Binary (.Term (.Number 1)) .Equals (.Term (.Number 1))) initState
      = .ok (.Boolean true, ⟨[]⟩, initState) := by
  have h := C4_comparison_policy 3 ⟨[]⟩ initState
    (.Term (.Number 1)) (.Term (.Number 1)) (fun a b => a < b)
    (.String "x") (.Number 1)
  refine ⟨?_, ?_, ?_⟩
  · rw [h.1 1 2]
    with_unfolding_all rfl
  · exact h.2.1 (Or.inl rfl)
  · rw [h.2.2]
    with_unfolding_all rfl

/-! ## Claim C5 -/

/-- C5 counterexample: the claim says a dynamic index key that is neither
a Number nor a String fails with `InvalidIndex`, but `({})[true]` reaches
the source's `todo!("Throw error")` panic, not a typed error. -/
theorem C5_key_counterexample :
    run 10 [.Return (.Index (.Term (.Table [])) (.Term (.Boolean true)))]
      = .error (.panicked "Throw error") ∧
    run 10 [.Return (.Index (.Term (.Table [])) (.Term (.Boolean true)))]
      ≠ .error (.lua (.InvalidIndex (.Boolean true))) := by
  have h : run 10 [.Return (.Index (.Term (.Table [])) (.Term (.Boolean true)))]
      = .error (.panicked "Throw error") := rfl
  refine ⟨h, ?_⟩
  rw [h]
  simp

/-- C5 (amended): `Dot`/`Index` on a non-Table value — as a read or as an
assignment target — fails with `InvalidIndex` carrying that value, and
`Call` on a value that is neither a `Function` nor a `NativeFunction`
fails with `InvalidCall` carrying it; a dynamic index key that is neither
a Number nor a String, however, hits the source's `todo!("Throw error")`
panic rather than a typed `InvalidIndex`. -/
theorem C5_invalid_index_and_call (fuel : Nat) (scope : Scope) (st : State) :
    (∀ objE name v sc1 st1,
      execute_expression fuel scope objE st = .ok (v, sc1, st1) →
      v.isTable = false →
      execute_dot_operation (fuel + 1) scope objE name st
        = .error (.lua (.InvalidIndex v))) ∧
    (∀ objE keyE v sc1 st1 idx sc2 st2,
      execute_expression fuel scope objE st = .ok (v, sc1, st1) →
      evaluate_index fuel sc1 keyE st1 = .ok (idx, sc2, st2) →
      v.isTable = false →
      execute_index_operation (fuel + 1) scope objE keyE st
        = .error (.lua (.InvalidIndex v))) ∧
    (∀ objE name rhsE rv sc1 st1 v sc2 st2,
      execute_expression fuel scope rhsE st = .ok (rv, sc1, st1) →
      execute_expression fuel sc1 objE st1 = .ok (v, sc2, st2) →
      v.isTable = false →
      execute_assign (fuel + 1) scope (.Dot objE name) rhsE st
        = .error (.lua (.InvalidIndex v))) ∧
    (∀ objE keyE rhsE rv sc1 st1 v sc2 st2,
      execute_expression fuel scope rhsE st = .ok (rv, sc1, st1) →
      execute_expression fuel sc1 objE st1 = .ok (v, sc2, st2) →
      v.isTable = false →
      execute_assign (fuel + 1) scope (.Index objE keyE) rhsE st
        = .error (.lua (.InvalidIndex v))) ∧
    (∀ calleeE args v sc1 st1,
      execute_expression fuel scope calleeE st = .ok (v, sc1, st1) →
      v.isCallable = false →
      execute_call (fuel + 1) scope calleeE args st
        = .error (.lua (.InvalidCall v))) ∧
    (∀ keyE v sc1 st1,
      execute_expression fuel scope keyE st = .ok (v, sc1, st1) →
      v.isNumber = false → v.isString = false →
      evaluate_index (fuel + 1) scope keyE st
        = .error (.panicked "Throw error")) := by
  refine ⟨?_, ?_, ?_, ?_, ?_, ?_⟩
  · intro objE name v sc1 st1 h1 hv
    cases v <;> simp [Value.isTable] at hv ⊢ <;>
      simp [execute_dot_operation, h1]
  · intro objE keyE v sc1 st1 idx sc2 st2 h1 h2 hv
    cases v <;> simp [Value.isTable] at hv ⊢ <;>
      simp [execute_index_operation, h1, h2]
  · intro objE name rhsE rv sc1 st1 v sc2 st2 h1 h2 hv
    cases v <;> simp [Value.isTable] at hv ⊢ <;>
      simp [execute_assign, h1, h2]
  · intro objE keyE rhsE rv sc1 st1 v sc2 st2 h1 h2 hv
    cases v <;> simp [Value.isTable] at hv ⊢ <;>
      simp [execute_assign, h1, h2]
  · intro calleeE args v sc1 st1 h1 hv
    cases v <;> simp [Value.isCallable] at hv ⊢ <;>
      simp [execute_call, h1]
  · intro keyE v sc1 st1 h1 hn hs
    cases v <;> simp [Value.isNumber, Value.isString] at hn hs ⊢ <;>
      simp [evaluate_index, h1]

/-- Witness for C5: `true.x` and `true[1]` raise `InvalidIndex (Boolean
true)`, assigning into `7.x` raises `InvalidIndex (Number 7)`, `7()`
raises `InvalidCall (Number 7)`, and a Boolean key panics. -/
theorem C5_invalid_index_and_call_witness :
    execute_dot_operation 4 ⟨[]⟩ (.Term (.Boolean true)) "x" initState
      = .error (.lua (.InvalidIndex (.Boolean true))) ∧
    execute_index_operation 4 ⟨[]⟩ (.Term (.Boolean true)) (.Term (.Number 1))
        initState = .error (.lua (.InvalidIndex (.Boolean true))) ∧
    execute_assign 4 ⟨[]⟩ (.Dot (.Term (.Number 7)) "x") (.Term (.Number 1))
        initState = .error (.lua (.InvalidIndex (.Number 7))) ∧
    execute_call 4 ⟨[]⟩ (.Term (.Number 7)) [] initState
      = .error (.lua (.InvalidCall (.Number 7))) ∧
    evaluate_index 4 ⟨[]⟩ (.Term (.Boolean true)) initState
      = .error (.panicked "Throw error") := by
  have h := C5_invalid_index_and_call 3 ⟨[]⟩ initState
  refine ⟨?_, ?_, ?_, ?_, ?_⟩
  · exact h.1 (.Term (.Boolean true)) "x" (.Boolean true) ⟨[]⟩ initState rfl rfl
  · exact h.2.1 (.Term (.Boolean true)) (.Term (.Number 1)) (.Boolean true)
      ⟨[]⟩ initState (Index.Number 1) ⟨[]⟩ initState rfl
      (by with_unfolding_all rfl) rfl
  · exact h.2.2.1 (.Term (.Number 7)) "x" (.Term (.Number 1)) (.Number 1)
      ⟨[]⟩ initState (.Number 7) ⟨[]⟩ initState rfl rfl rfl
  · exact h.2.2.2.2.1 (.Term (.Number 7)) [] (.Number 7) ⟨[]⟩ initState rfl rfl
  · exact h.2.2.2.2.2 (.Term (.Boolean true)) (.Boolean true) ⟨[]⟩ initState
      rfl rfl rfl

/-! ## Claim C7 -/

/-- C7 counterexample: the claim says a whole Number key normalizes to a
Number index *equal to that integer*, but the `as i32` cast saturates:
the whole number `10^10` normalizes to `2147483647`, not `10^10`. -/
theorem C7_saturation_counterexample :
    evaluate_index 3 ⟨[]⟩ (.Term (.Number 10000000000)) initState
      = .ok (.Number 2147483647, ⟨[]⟩, initState) ∧
    Index.Number 2147483647 ≠ Index.Number 10000000000 := by
  constructor
  · with_unfolding_all rfl
  · decide

/-- C7 (amended): a Number key with an exact integer representation
normalizes to a Number index equal to that integer *saturated to the
`i32` range* (so equal to the integer whenever it lies within the `i32`
bounds); a non-integral Number normalizes to a Name index of its decimal
rendering; a String normalizes to a Name index of that string; hence
`t[1]` and `t["1"]` are distinct entries while a key evaluating to the
number `1.0 = 1` reads `t[1]`'s entry. -/
theorem C7_key_normalization (fuel : Nat) (scope : Scope) (st : State)
    (keyE : Expression) :
    (∀ n sc1 st1,
      execute_expression fuel scope keyE st = .ok (.Number n, sc1, st1) →
      n.den = 1 →
      evaluate_index (fuel + 1) scope keyE st
        = .ok (.Number (i32Clamp n.num), sc1, st1)) ∧
    (∀ n : Int, -(2 ^ 31) ≤ n → n ≤ 2 ^ 31 - 1 → i32Clamp n = n) ∧
    (∀ n sc1 st1,
      execute_expression fuel scope keyE st = .ok (.Number n, sc1, st1) →
      n.den ≠ 1 →
      evaluate_index (fuel + 1) scope keyE st
        = .ok (.Name (renderNum n), sc1, st1)) ∧
    (∀ s sc1 st1,
      execute_expression fuel scope keyE st = .ok (.String s, sc1, st1) →
      evaluate_index (fuel + 1) scope keyE st = .ok (.Name s, sc1, st1)) ∧
    (∀ t v, tableGet (tableInsert t (.Number 1) v) (.Name "1")
        = tableGet t (.Name "1")) ∧
    (∀ t v, tableGet (tableInsert t (.Number 1) v) (.Number 1) = some v) := by
  refine ⟨?_, ?_, ?_, ?_, ?_, ?_⟩
  · intro n sc1 st1 h hden
    simp [evaluate_index, h, hden]
  · intro n h1 h2
    simp only [i32Clamp]
    rw [if_neg (by omega), if_neg (by omega)]
  · intro n sc1 st1 h hden
    simp [evaluate_index, h, hden]
  · intro s sc1 st1 h
    simp [evaluate_index, h]
  · intro t v
    simp only [tableGet, tableInsert, lookupIdx]
    rw [if_neg (by simp)]
    exact lookupIdx_filter_ne t (.Number 1) (.Name "1") (by simp)
  · intro t v
    simp [tableGet, tableInsert, lookupIdx]

/-- Witness for C7: the key `3` becomes the Number index `3`, the key
`3/2` becomes a Name index of its rendering, the key `"1"` becomes the
Name index `"1"`, and the two table facts at a concrete table. -/
theorem C7_key_normalization_witness :
    evaluate_index 4 ⟨[]⟩ (.Term (.Number 3)) initState
      = .ok (.Number 3, ⟨[]⟩, initState) ∧
    evaluate_index 4 ⟨[]⟩ (.Term (.Number (3 / 2))) initState
      = .ok (.Name (renderNum (3 / 2)), ⟨[]⟩, initState) ∧
    evaluate_index 4 ⟨[]⟩ (.Term (.String "1")) initState
      = .ok (.Name "1", ⟨[]⟩, initState) ∧
    tableGet (tableInsert [] (.Number 1) (.Number 42)) (.Name "1") = none ∧
    tableGet (tableInsert [] (.Number 1) (.Number 42)) (.Number 1)
      = some (.Number 42) := by
  have h1 := C7_key_normalization 3 ⟨[]⟩ initState (.Term (.Number 3))
  have h2 := C7_key_normalization 3 ⟨[]⟩ initState (.Term (.Number (3 / 2)))
  have h3 := C7_key_normalization 3 ⟨[]⟩ initState (.Term (.String "1"))
  refine ⟨?_, ?_, ?_, ?_, ?_⟩
  · rw [h1.1 3 ⟨[]⟩ initState (by with_unfolding_all rfl)
      (by with_unfolding_all rfl)]
    with_unfolding_all rfl
  · rw [h2.2.2.1 (3 / 2) ⟨[]⟩ initState (by with_unfolding_all rfl)
      (by with_unfolding_all decide)]
  · exact h3.2.2.2.1 "1" ⟨[]⟩ initState rfl
  · exact (C7_key_normalization 0 ⟨[]⟩ initState (.Term (.String "")))
      |>.2.2.2.2.1 [] (.Number 42)
  · exact (C7_key_normalization 0 ⟨[]⟩ initState (.Term (.String "")))
      |>.2.2.2.2.2 [] (.Number 42)

/-! ## Claim C6 -/

/-- C6: `execute_numeric_for` evaluates start, limit and step once each,
in that order, before any iteration; a non-Number start/limit/step raises
`BadForInitialValue`/`BadForLimit`/`BadForStep` carrying that value, with
the body never entering into the result (the error conclusions hold for
every body); an omitted step defaults to `1.0`; the loop runs while
`current <= limit`, rebinding the loop variable in the loop's scope via
`put`, stopping immediately on a body return and otherwise adding the
step and continuing; past the limit it yields no value. -/
theorem C6_numeric_for (fuel : Nat) (scope : Scope) (st : State)
    (name : String) (startE stopE : Expression) (stepE : Option Expression)
    (body : List Statement) :
    (∀ v sc1 st1,
      execute_expression fuel scope startE st = .ok (v, sc1, st1) →
      v.isNumber = false →
      execute_numeric_for (fuel + 1) scope name startE stopE stepE body st
        = .error (.lua (.BadForInitialValue v))) ∧
    (∀ a sc1 st1 v sc2 st2,
      execute_expression fuel scope startE st = .ok (.Number a, sc1, st1) →
      execute_expression fuel sc1 stopE st1 = .ok (v, sc2, st2) →
      v.isNumber = false →
      execute_numeric_for (fuel + 1) scope name startE stopE stepE body st
        = .error (.lua (.BadForLimit v))) ∧
    (∀ a sc1 st1 l sc2 st2 sE v sc3 st3, stepE = some sE →
      execute_expression fuel scope startE st = .ok (.Number a, sc1, st1) →
      execute_expression fuel sc1 stopE st1 = .ok (.Number l, sc2, st2) →
      execute_expression fuel sc2 sE st2 = .ok (v, sc3, st3) →
      v.isNumber = false →
      execute_numeric_for (fuel + 1) scope name startE stopE stepE body st
        = .error (.lua (.BadForStep v))) ∧
    (∀ a sc1 st1 l sc2 st2, stepE = none →
      execute_expression fuel scope startE st = .ok (.Number a, sc1, st1) →
      execute_expression fuel sc1 stopE st1 = .ok (.Number l, sc2, st2) →
      execute_numeric_for (fuel + 1) scope name startE stopE stepE body st
        = numeric_for_loop fuel sc2 name a l 1 body st2) ∧
    (∀ a sc1 st1 l sc2 st2 sE s sc3 st3, stepE = some sE →
      execute_expression fuel scope startE st = .ok (.Number a, sc1, st1) →
      execute_expression fuel sc1 stopE st1 = .ok (.Number l, sc2, st2) →
      execute_expression fuel sc2 sE st2 = .ok (.Number s, sc3, st3) →
      execute_numeric_for (fuel + 1) scope name startE stopE stepE body st
        = numeric_for_loop fuel sc3 name a l s body st3) ∧
    (∀ value limit step sc v sc' st',
      value ≤ limit →
      execute_body fuel (putVar sc st name (.Number value)).1 body
          (putVar sc st name (.Number value)).2 = .ok (some v, sc', st') →
      numeric_for_loop (fuel + 1) sc name value limit step body st
        = .ok (some v, sc', st')) ∧
    (∀ value limit step sc sc' st',
      value ≤ limit →
      execute_body fuel (putVar sc st name (.Number value)).1 body
          (putVar sc st name (.Number value)).2 = .ok (none, sc', st') →
      numeric_for_loop (fuel + 1) sc name value limit step body st
        = numeric_for_loop fuel sc' name (value + step) limit step body st') ∧
    (∀ value limit step sc, ¬ value ≤ limit →
      numeric_for_loop (fuel + 1) sc name value limit step body st
        = .ok (none, sc, st)) := by
  refine ⟨?_, ?_, ?_, ?_, ?_, ?_, ?_, ?_⟩
  · intro v sc1 st1 h1 hv
    cases v <;> simp [Value.isNumber] at hv ⊢ <;>
      simp [execute_numeric_for, h1]
  · intro a sc1 st1 v sc2 st2 h1 h2 hv
    cases v <;> simp [Value.isNumber] at hv ⊢ <;>
      simp [execute_numeric_for, h1, h2]
  · intro a sc1 st1 l sc2 st2 sE v sc3 st3 hs h1 h2 h3 hv
    subst hs
    cases v <;> simp [Value.isNumber] at hv ⊢ <;>
      simp [execute_numeric_for, h1, h2, h3]
  · intro a sc1 st1 l sc2 st2 hs h1 h2
    subst hs
    simp [execute_numeric_for, h1, h2]
  · intro a sc1 st1 l sc2 st2 sE s sc3 st3 hs h1 h2 h3
    subst hs
    simp [execute_numeric_for, h1, h2, h3]
  · intro value limit step sc v sc' st' hle hbody
    simp [numeric_for_loop, hle, hbody]
  · intro value limit step sc sc' st' hle hbody
    simp [numeric_for_loop, hle, hbody]
  · intro value limit step sc hgt
    simp [numeric_for_loop, hgt]

/-- Witness for C6: a Boolean start raises `BadForInitialValue` for any
body; `for i = 0, 10` with omitted step enters the loop with step `1`; a
loop whose current value exceeds the limit stops with no value; and the
spec's example `x = 0; for i = 0, 10, 2 do x = x + i end; return x`
evaluates to `30` end to end. -/
theorem C6_numeric_for_witness :
    execute_numeric_for 4 ⟨[]⟩ "i" (.Term (.Boolean true)) (.Term (.Number 1))
        none [] initState = .error (.lua (.BadForInitialValue (.Boolean true))) ∧
    execute_numeric_for 4 ⟨[]⟩ "i" (.Term (.Number 0)) (.Term (.Number 10))
        none [] initState = numeric_for_loop 3 ⟨[]⟩ "i" 0 10 1 [] initState ∧
    numeric_for_loop 4 ⟨[]⟩ "i" 11 10 1 [] initState
      = .ok (none, ⟨[]⟩, initState) ∧
    run 200 [
      .Assignment (.Term (.Variable "x")) (.Term (.Number 0)),
      .NumericFor "i" (.Term (.Number 0)) (.Term (.Number 10))
        (some (.Term (.Number 2)))
        [.Assignment (.Term (.Variable "x"))
          (.Binary (.Term (.Variable "x")) .Add (.Term (.Variable "i")))],
      .Return (.Term (.Variable "x"))] = .ok (.Number 30) := by
  have h := C6_numeric_for 3 ⟨[]⟩ initState "i" (.Term (.Boolean true))
    (.Term (.Number 1)) none []
  have h2 := C6_numeric_for 3 ⟨[]⟩ initState "i" (.Term (.Number 0))
    (.Term (.Number 10)) none []
  refine ⟨?_, ?_, ?_, ?_⟩
  · exact h.1 (.Boolean true) ⟨[]⟩ initState rfl rfl
  · exact h2.2.2.2.1 0 ⟨[]⟩ initState 10 ⟨[]⟩ initState rfl rfl rfl
  · exact h2.2.2.2.2.2.2.2 11 10 1 ⟨[]⟩ (by with_unfolding_all decide)
  · with_unfolding_all rfl

/-! ## Claim C8 -/

/-- C8: assigning to a bare variable stores into the current scope iff the
name is bound there and into the global scope otherwise; reading a
variable tries the current scope, then the global scope, then defaults to
`Nil`; and a named function declaration always registers its closure in
the global scope, whatever the current scope is. -/
theorem C8_name_resolution (fuel : Nat) (scope : Scope) (st : State)
    (name : String) :
    (∀ rhsE v sc1 st1,
      execute_expression fuel scope rhsE st = .ok (v, sc1, st1) →
      sc1.has name = true →
      execute_assign (fuel + 1) scope (.Term (.Variable name)) rhsE st
        = .ok (putVar sc1 st1 name v)) ∧
    (∀ rhsE v sc1 st1,
      execute_expression fuel scope rhsE st = .ok (v, sc1, st1) →
      sc1.has name = false →
      execute_assign (fuel + 1) scope (.Term (.Variable name)) rhsE st
        = .ok (sc1, putGlobal st1 name v)) ∧
    (∀ v, scope.get name st.cells = some v →
      execute_term (fuel + 1) scope (.Variable name) st = .ok (v, scope, st)) ∧
    (∀ v, scope.get name st.cells = none →
      st.global_scope.get name st.cells = some v →
      execute_term (fuel + 1) scope (.Variable name) st = .ok (v, scope, st)) ∧
    (scope.get name st.cells = none →
      st.global_scope.get name st.cells = none →
      execute_term (fuel + 1) scope (.Variable name) st
        = .ok (.Nil, scope, st)) ∧
    (∀ params body,
      execute_statement (fuel + 1) scope (.Function name params body) st
        = .ok (none, scope,
               putGlobal st name (.Function params body (Scope.clone scope)))) := by
  refine ⟨?_, ?_, ?_, ?_, ?_, ?_⟩
  · intro rhsE v sc1 st1 h1 hb
    simp [execute_assign, h1, hb]
  · intro rhsE v sc1 st1 h1 hb
    simp [execute_assign, h1, hb]
  · intro v h
    simp [execute_term, h]
  · intro v h hg
    simp [execute_term, h, hg]
  · intro h hg
    simp [execute_term, h, hg]
  · intro params body
    rfl

/-- Witness for C8 at concrete scopes: an assignment to a name bound in
the current scope rewrites its cell; an assignment to an unbound name
binds globally; reads hit the local cell, fall back to the global cell,
or default to Nil; a function declaration lands in the global scope. -/
theorem C8_name_resolution_witness :
    execute_assign 4 ⟨[("x", 0)]⟩ (.Term (.Variable "x")) (.Term (.Number 5))
        { global_scope := ⟨[]⟩, cells := [.Nil], tables := [], natives := [] }
      = .ok (⟨[("x", 0)]⟩,
             { global_scope := ⟨[]⟩, cells := [.Number 5], tables := [],
               natives := [] }) ∧
    execute_assign 4 ⟨[]⟩ (.Term (.Variable "y")) (.Term (.Number 6)) initState
      = .ok (⟨[]⟩,
             { global_scope := ⟨[("y", 0)]⟩, cells := [.Number 6], tables := [],
               natives := [] }) ∧
    execute_term 4 ⟨[("x", 0)]⟩ (.Variable "x")
        { global_scope := ⟨[("x", 1)]⟩, cells := [.Number 1, .Number 2],
          tables := [], natives := [] }
      = .ok (.Number 1, ⟨[("x", 0)]⟩,
             { global_scope := ⟨[("x", 1)]⟩, cells := [.Number 1, .Number 2],
               tables := [], natives := [] }) ∧
    execute_term 4 ⟨[]⟩ (.Variable "x")
        { global_scope := ⟨[("x", 1)]⟩, cells := [.Number 1, .Number 2],
          tables := [], natives := [] }
      = .ok (.Number 2, ⟨[]⟩,
             { global_scope := ⟨[("x", 1)]⟩, cells := [.Number 1, .Number 2],
               tables := [], natives := [] }) ∧
    execute_term 4 ⟨[]⟩ (.Variable "z") initState
      = .ok (.Nil, ⟨[]⟩, initState) ∧
    execute_statement 4 ⟨[("l", 0)]⟩ (.Function "f" ["a"] [])
        { global_scope := ⟨[]⟩, cells := [.Nil], tables := [], natives := [] }
      = .ok (none, ⟨[("l", 0)]⟩,
             { global_scope := ⟨[("f", 1)]⟩,
               cells := [.Nil, .Function ["a"] [] ⟨[("l", 0)]⟩],
               tables := [], natives := [] }) := by
  refine ⟨?_, ?_, ?_, ?_, ?_, ?_⟩
  · rw [(C8_name_resolution 3 ⟨[("x", 0)]⟩
      { global_scope := ⟨[]⟩, cells := [.Nil], tables := [], natives := [] }
      "x").1 (.Term (.Number 5)) (.Number 5) ⟨[("x", 0)]⟩
      { global_scope := ⟨[]⟩, cells := [.Nil], tables := [], natives := [] }
      rfl rfl]
    rfl
  · rw [(C8_name_resolution 3 ⟨[]⟩ initState "y").2.1 (.Term (.Number 6))
      (.Number 6) ⟨[]⟩ initState rfl rfl]
    rfl
  · exact (C8_name_resolution 3 ⟨[("x", 0)]⟩
      { global_scope := ⟨[("x", 1)]⟩, cells := [.Number 1, .Number 2],
        tables := [], natives := [] } "x").2.2.1 (.Number 1) rfl
  · exact (C8_name_resolution 3 ⟨[]⟩
      { global_scope := ⟨[("x", 1)]⟩, cells := [.Number 1, .Number 2],
        tables := [], natives := [] } "x").2.2.2.1 (.Number 2) rfl rfl
  · exact (C8_name_resolution 3 ⟨[]⟩ initState "z").2.2.2.2.1 rfl rfl
  · rw [(C8_name_resolution 3 ⟨[("l", 0)]⟩
      { global_scope := ⟨[]⟩, cells := [.Nil], tables := [], natives := [] }
      "f").2.2.2.2.2 ["a"] []]
    rfl

/-! ## Claim C9 -/

/-- C9 counterexample: the auto counter is an `i32`.  Once `2^31 - 2`
auto-keyed entries have been processed the counter stands at
`i32::MAX = 2^31 - 1`, and the next auto-keyed entry is *not* assigned
the next sequential Number index and inserted: the `+= 1` overflows, so
the constructor aborts with an overflow panic (debug profile; a release
build would wrap the counter to `-2^31`, also not sequential) instead of
producing the table the claim describes. -/
theorem C9_counter_overflow_counterexample :
    construct_table_items 3 ⟨[]⟩ [(none, .Term (.Number 9))] (2 ^ 31 - 1) []
        initState = .error (.panicked "attempt to add with overflow") ∧
    construct_table_items 3 ⟨[]⟩ [(none, .Term (.Number 9))] (2 ^ 31 - 1) []
        initState
      ≠ .ok ([(Index.Number (2 ^ 31 - 1), Value.Number 9)], ⟨[]⟩, initState) := by
  have h : construct_table_items 3 ⟨[]⟩ [(none, .Term (.Number 9))]
      (2 ^ 31 - 1) [] initState
      = .error (.panicked "attempt to add with overflow") := by
    with_unfolding_all rfl
  refine ⟨h, ?_⟩
  rw [h]
  simp

/-- C9 (amended): the table constructor processes entries in source
order, evaluating each value expression at its position; an explicit name
key becomes a Name index; an explicit value key is evaluated and
normalized exactly as dynamic indexing does (`evaluate_index`); an
omitted key takes the auto counter (an `i32` starting at `1` in
`execute_construct_table`), the only entry kind that advances it, so long
as the counter is below `i32::MAX = 2^31 - 1` — an auto-keyed entry
reached with the counter at that bound aborts with an arithmetic-overflow
panic (debug overflow checks; a release build would wrap to `-2^31`)
after evaluating its value and before inserting; and inserting overwrites
any earlier entry with the same index while leaving other indices
untouched. -/
theorem C9_table_constructor (fuel : Nat) (scope : Scope) (st : State)
    (counter : Int) (acc : LuaTable) :
    (construct_table_items (fuel + 1) scope [] counter acc st
      = .ok (acc, scope, st)) ∧
    (∀ nm e v sc1 st1 rest,
      execute_expression fuel scope e st = .ok (v, sc1, st1) →
      construct_table_items (fuel + 1) scope ((some (.Name nm), e) :: rest)
          counter acc st
        = construct_table_items fuel sc1 rest counter
            (tableInsert acc (.Name nm) v) st1) ∧
    (∀ ke e v sc1 st1 idx sc2 st2 rest,
      execute_expression fuel scope e st = .ok (v, sc1, st1) →
      evaluate_index fuel sc1 ke st1 = .ok (idx, sc2, st2) →
      construct_table_items (fuel + 1) scope ((some (.Value ke), e) :: rest)
          counter acc st
        = construct_table_items fuel sc2 rest counter
            (tableInsert acc idx v) st2) ∧
    (∀ e v sc1 st1 rest,
      execute_expression fuel scope e st = .ok (v, sc1, st1) →
      counter < 2 ^ 31 - 1 →
      construct_table_items (fuel + 1) scope ((none, e) :: rest)
          counter acc st
        = construct_table_items fuel sc1 rest (counter + 1)
            (tableInsert acc (.Number counter) v) st1) ∧
    (∀ e v sc1 st1 rest,
      execute_expression fuel scope e st = .ok (v, sc1, st1) →
      construct_table_items (fuel + 1) scope ((none, e) :: rest)
          (2 ^ 31 - 1) acc st
        = .error (.panicked "attempt to add with overflow")) ∧
    (∀ items t sc1 st1,
      construct_table_items fuel scope items 1 [] st = .ok (t, sc1, st1) →
      execute_construct_table (fuel + 1) scope items st
        = .ok (.Table st1.tables.length, sc1,
               { st1 with tables := st1.tables ++ [t] })) ∧
    (∀ t i v, tableGet (tableInsert t i v) i = some v) ∧
    (∀ t i j v, j ≠ i → tableGet (tableInsert t i v) j = tableGet t j) := by
  refine ⟨rfl, ?_, ?_, ?_, ?_, ?_, ?_, ?_⟩
  · intro nm e v sc1 st1 rest h
    simp [construct_table_items, h]
  · intro ke e v sc1 st1 idx sc2 st2 rest h1 h2
    simp [construct_table_items, h1, h2]
  · intro e v sc1 st1 rest h hlt
    have hne : counter ≠ 2147483647 := by omega
    simp [construct_table_items, h, hne]
  · intro e v sc1 st1 rest h
    simp [construct_table_items, h]
  · intro items t sc1 st1 h
    simp [execute_construct_table, h]
  · intro t i v
    simp [tableGet, tableInsert, lookupIdx]
  · intro t i j v hne
    simp only [tableGet, tableInsert, lookupIdx]
    rw [if_neg (fun hij => hne hij.symm)]
    exact lookupIdx_filter_ne t i j hne

/-- Witness for C9: building `{a = 1, 2, [1] = 3, 4}` step by step — the
first auto entry takes index 1, the explicit `[1]` key overwrites it
without consuming the counter, the second auto entry takes index 2; an
auto entry reached with the counter at `i32::MAX` panics; and the
end-to-end programs `x = {a=1, 2, [1]=3, 4} return x[2]` and
`... return x[1]` yield `4` and `3`. -/
theorem C9_table_constructor_witness :
    construct_table_items 4 ⟨[]⟩
        [(some (.Name "a"), .Term (.Number 1)), (none, .Term (.Number 2))]
        1 [] initState
      = .ok (tableInsert (tableInsert [] (.Name "a") (.Number 1))
               (.Number 1) (.Number 2), ⟨[]⟩, initState) ∧
    construct_table_items 4 ⟨[]⟩ [(none, .Term (.Number 9))] (2 ^ 31 - 1) []
        initState = .error (.panicked "attempt to add with overflow") ∧
    tableGet (tableInsert [(Index.Number 1, Value.Number 2)]
        (.Number 1) (.Number 3)) (.Number 1) = some (.Number 3) ∧
    tableGet (tableInsert [(Index.Number 1, Value.Number 2)]
        (.Name "a") (.Number 9)) (.Number 1) = some (.Number 2) ∧
    run 100 [
      .Assignment (.Term (.Variable "x")) (.Term (.Table
        [(some (.Name "a"), .Term (.Number 1)), (none, .Term (.Number 2)),
         (some (.Value (.Term (.Number 1))), .Term (.Number 3)),
         (none, .Term (.Number 4))])),
      .Return (.Index (.Term (.Variable "x")) (.Term (.Number 2)))]
      = .ok (.Number 4) ∧
    run 100 [
      .Assignment (.Term (.Variable "x")) (.Term (.Table
        [(some (.Name "a"), .Term (.Number 1)), (none, .Term (.Number 2)),
         (some (.Value (.Term (.Number 1))), .Term (.Number 3)),
         (none, .Term (.Number 4))])),
      .Return (.Index (.Term (.Variable "x")) (.Term (.Number 1)))]
      = .ok (.Number 3) := by
  have h := C9_table_constructor 3 ⟨[]⟩ initState 1 []
  have h2 := C9_table_constructor 2 ⟨[]⟩ initState 1
    (tableInsert [] (.Name "a") (.Number 1))
  have h3 := C9_table_constructor 3 ⟨[]⟩ initState (2 ^ 31 - 1) []
  refine ⟨?_, ?_, ?_, ?_, ?_, ?_⟩
  · rw [h.2.1 "a" (.Term (.Number 1)) (.Number 1) ⟨[]⟩ initState
      [(none, .Term (.Number 2))] rfl]
    rw [h2.2.2.2.1 (.Term (.Number 2)) (.Number 2) ⟨[]⟩ initState [] rfl
      (by norm_num)]
    rfl
  · exact h3.2.2.2.2.1 (.Term (.Number 9)) (.Number 9) ⟨[]⟩ initState [] rfl
  · exact h.2.2.2.2.2.2.1 [(Index.Number 1, Value.Number 2)]
      (.Number 1) (.Number 3)
  · rw [h.2.2.2.2.2.2.2 [(Index.Number 1, Value.Number 2)]
      (.Name "a") (.Number 1) (.Number 9) (by simp)]
    rfl
  · with_unfolding_all rfl
  · with_unfolding_all rfl

/-! ## Claim C1 -/

/-- C1: within any body, a statement that signals a return value makes
`execute_body` stop with that value, skipping the remaining statements (a
statement signalling no value continues, and errors propagate); a taken
`If` branch's body result is returned directly, so a return inside it
propagates; a body return inside a `NumericFor` iteration stops the loop
immediately with that value; at a function-call boundary the propagated
value becomes the call's result (and `Nil` when the body finishes without
returning); and the top-level `execute` yields the body's return value,
`Nil` when there is none, or the first error. -/
theorem C1_return_propagation (fuel : Nat) (scope : Scope) (st : State) :
    (∀ s rest v sc1 st1,
      execute_statement fuel scope s st = .ok (some v, sc1, st1) →
      execute_body (fuel + 1) scope (s :: rest) st = .ok (some v, sc1, st1)) ∧
    (∀ s rest sc1 st1,
      execute_statement fuel scope s st = .ok (none, sc1, st1) →
      execute_body (fuel + 1) scope (s :: rest) st
        = execute_body fuel sc1 rest st1) ∧
    (∀ s rest e,
      execute_statement fuel scope s st = .error e →
      execute_body (fuel + 1) scope (s :: rest) st = .error e) ∧
    (∀ condE thenB elseifB elseB cv sc1 st1,
      execute_expression fuel scope condE st = .ok (cv, sc1, st1) →
      cv.is_truthy = true →
      execute_if (fuel + 1) scope condE thenB elseifB elseB st
        = execute_body fuel sc1 thenB st1) ∧
    (∀ nm value limit step body v sc' st',
      value ≤ limit →
      execute_body fuel (putVar scope st nm (.Number value)).1 body
          (putVar scope st nm (.Number value)).2 = .ok (some v, sc', st') →
      numeric_for_loop (fuel + 1) scope nm value limit step body st
        = .ok (some v, sc', st')) ∧
    (∀ args params body capture sc1 fs st1 v sc2 st2,
      params.length = args.length →
      bind_parameters fuel scope (Scope.clone capture) args params st
        = .ok (sc1, fs, st1) →
      execute_body fuel fs body st1 = .ok (some v, sc2, st2) →
      execute_function_call (fuel + 1) scope args params body capture st
        = .ok (v, sc1, st2)) ∧
    (∀ args params body capture sc1 fs st1 sc2 st2,
      params.length = args.length →
      bind_parameters fuel scope (Scope.clone capture) args params st
        = .ok (sc1, fs, st1) →
      execute_body fuel fs body st1 = .ok (none, sc2, st2) →
      execute_function_call (fuel + 1) scope args params body capture st
        = .ok (.Nil, sc1, st2)) ∧
    (∀ program ov sc1 st1,
      execute_body fuel ⟨[]⟩ program st = .ok (ov, sc1, st1) →
      execute fuel program st = .ok (ov.getD .Nil, st1)) ∧
    (∀ program e,
      execute_body fuel ⟨[]⟩ program st = .error e →
      execute fuel program st = .error e) := by
  refine ⟨?_, ?_, ?_, ?_, ?_, ?_, ?_, ?_, ?_⟩
  · intro s rest v sc1 st1 h
    simp [execute_body, h]
  · intro s rest sc1 st1 h
    simp [execute_body, h]
  · intro s rest e h
    simp [execute_body, h]
  · intro condE thenB elseifB elseB cv sc1 st1 h ht
    simp [execute_if, h, ht]
  · intro nm value limit step body v sc' st' hle hbody
    simp [numeric_for_loop, hle, hbody]
  · intro args params body capture sc1 fs st1 v sc2 st2 hlen hbind hbody
    simp [execute_function_call, hlen, hbind, hbody]
  · intro args params body capture sc1 fs st1 sc2 st2 hlen hbind hbody
    simp [execute_function_call, hlen, hbind, hbody]
  · intro program ov sc1 st1 h
    simp [execute, h]
  · intro program e h
    simp [execute, h]

/-- Witness for C1: a leading `return 1` makes the body ignore a later
`return 2`; a truthy `if` hands its branch's body straight through; a
parameterless call whose body is `return 7` evaluates to `7`; the
top-level program `return 3` executes to `3`; and end to end, a `return`
buried in an `if` inside a `for` surfaces at the top level:
`for i = 0, 10 do if i == 3 then return i end end return 99` yields `3`. -/
theorem C1_return_propagation_witness :
    execute_body 5 ⟨[]⟩ [.Return (.Term (.Number 1)),
        .Return (.Term (.Number 2))] initState
      = .ok (some (.Number 1), ⟨[]⟩, initState) ∧
    execute_if 5 ⟨[]⟩ (.Term (.Boolean true)) [.Return (.Term (.Number 5))]
        [] none initState = execute_body 4 ⟨[]⟩ [.Return (.Term (.Number 5))]
        initState ∧
    execute_function_call 5 ⟨[]⟩ [] [] [.Return (.Term (.Number 7))] ⟨[]⟩
        initState = .ok (.Number 7, ⟨[]⟩, initState) ∧
    execute 4 [.Return (.Term (.Number 3))] initState
      = .ok (.Number 3, initState) ∧
    run 400 [
      .NumericFor "i" (.Term (.Number 0)) (.Term (.Number 10)) none
        [.If (.Binary (.Term (.Variable "i")) .Equals (.Term (.Number 3)))
           [.Return (.Term (.Variable "i"))] [] none],
      .Return (.Term (.Number 99))] = .ok (.Number 3) := by
  have h := C1_return_propagation 4 ⟨[]⟩ initState
  refine ⟨?_, ?_, ?_, ?_, ?_⟩
  · exact h.1 (.Return (.Term (.Number 1))) [.Return (.Term (.Number 2))]
      (.Number 1) ⟨[]⟩ initState rfl
  · exact h.2.2.2.1 (.Term (.Boolean true)) [.Return (.Term (.Number 5))]
      [] none (.Boolean true) ⟨[]⟩ initState rfl rfl
  · exact h.2.2.2.2.2.1 [] [] [.Return (.Term (.Number 7))] ⟨[]⟩ ⟨[]⟩ ⟨[]⟩
      initState (.Number 7) ⟨[]⟩ initState rfl rfl rfl
  · exact h.2.2.2.2.2.2.2.1 [.Return (.Term (.Number 3))]
      (some (.Number 3)) ⟨[]⟩ initState rfl
  · with_unfolding_all rfl

/-! ## Claim C10 -/

/-- C10: binding a script function's parameter whose name was already
bound in the closure's captured scope writes the argument through the
shared cell: the callee scope stays the capture itself (same map, same
cell), the heap is updated at the capture-time address, and every scope
holding that address — the defining scope and sibling closures included —
subsequently reads the argument value.  Parameter binding is therefore
not confined to the call frame for capture-time names. -/
theorem C10_parameter_binding_writes_through (fuel : Nat) (scope : Scope)
    (st : State) (p : String) (a : Nat) (argE : Expression)
    (capture : Scope) :
    capture.addrOf p = some a →
    ∀ v sc1 st1,
      execute_expression (fuel + 1) scope argE st = .ok (v, sc1, st1) →
      a < st1.cells.length →
      (bind_parameters (fuel + 2) scope (Scope.clone capture) [argE] [p] st
        = .ok (sc1, capture, { st1 with cells := st1.cells.set a v })) ∧
      (∀ s2 : Scope, s2.addrOf p = some a →
        s2.get p (st1.cells.set a v) = some v) := by
  intro ha v sc1 st1 hex hlt
  have ha' : lookupName capture.table p = some a := ha
  constructor
  · simp [bind_parameters, hex, Scope.clone, Scope.put, ha']
  · intro s2 h2
    have h2' : lookupName s2.table p = some a := h2
    simp [Scope.get, h2', List.getD, List.getElem?_set_eq_of_lt v hlt]

/-- Witness for C10: calling `f(99)` where `f`'s parameter `x` was
captured as cell 0 (holding `10`) overwrites cell 0 with `99` for every
holder, and end to end
`local x = 10; function f(x) end; f(99); return x` yields `99`. -/
theorem C10_parameter_binding_writes_through_witness :
    bind_parameters 3 ⟨[]⟩ (Scope.clone ⟨[("x", 0)]⟩) [.Term (.Number 99)]
        ["x"]
        { global_scope := ⟨[]⟩, cells := [.Number 10], tables := [],
          natives := [] }
      = .ok (⟨[]⟩, ⟨[("x", 0)]⟩,
             { global_scope := ⟨[]⟩, cells := [.Number 99], tables := [],
               natives := [] }) ∧
    (Scope.mk [("x", 0)]).get "x" [Value.Number 99] = some (.Number 99) ∧
    run 60 [
      .Local "x" (.Term (.Number 10)),
      .Function "f" ["x"] [],
      .Expression (.Call (.Term (.Variable "f")) [.Term (.Number 99)]),
      .Return (.Term (.Variable "x"))] = .ok (.Number 99) := by
  have h := C10_parameter_binding_writes_through 1 ⟨[]⟩
    { global_scope := ⟨[]⟩, cells := [.Number 10], tables := [],
      natives := [] } "x" 0 (.Term (.Number 99)) ⟨[("x", 0)]⟩ rfl
    (.Number 99) ⟨[]⟩
    { global_scope := ⟨[]⟩, cells := [.Number 10], tables := [],
      natives := [] } rfl (by simp)
  refine ⟨?_, ?_, ?_⟩
  · rw [h.1]
    rfl
  · exact h.2 ⟨[("x", 0)]⟩ rfl
  · with_unfolding_all rfl

end RustLua
